import Mathlib

/-
  Verification development for the supreme-court judgment scraper.

  The Python sources are shallowly embedded: text is modelled as `List Char`
  (`Str`), parsed HTML (the BeautifulSoup object both parsers receive) as
  explicit structures of tables, rows, cells and anchors, the MongoDB
  collection as a list of stored documents, and the progress file as an
  optional record of completed/failed ranges.  Dates are modelled by their
  proleptic-Gregorian ordinal (Python's `datetime.toordinal`), under which
  `timedelta` arithmetic is ordinary natural-number arithmetic.
-/

namespace SCS

/-- Text is modelled as a list of characters; Python `str` operations are
defined on this representation. -/
abbrev Str := List Char

/-- The character list of a Lean string literal. -/
def str (s : String) : Str := s.toList

/-- Python `str.lower()` (per-character lowering, which is what the scraper's
ASCII keywords need). -/
def lowerStr (s : Str) : Str := s.map Char.toLower

/-- Whether `pat` occurs as a contiguous run of `s` — Python's `pat in s`. -/
def containsSub (pat s : Str) : Bool :=
  match s with
  | [] => pat.isEmpty
  | _ :: t => (List.isPrefixOf pat s) || containsSub pat t

/-- Python `str.strip()`: drop leading and trailing whitespace. -/
def stripCh (s : Str) : Str :=
  ((s.dropWhile Char.isWhitespace).reverse.dropWhile Char.isWhitespace).reverse

/-- One step of the whitespace splitter, consumed by `List.foldr`: the state is
the word currently being assembled at the left end together with the finished
words to its right. -/
def wstep (c : Char) (st : Str × List Str) : Str × List Str :=
  if c.isWhitespace then ([], if st.1 = [] then st.2 else st.1 :: st.2)
  else (c :: st.1, st.2)

/-- Close the splitter state: emit the pending word if it is nonempty. -/
def wfinish (st : Str × List Str) : List Str :=
  if st.1 = [] then st.2 else st.1 :: st.2

/-- Python `str.split()` with no argument: the maximal whitespace-free runs,
in order, empties dropped. -/
def pyWords (s : Str) : List Str :=
  wfinish (s.foldr wstep ([], []))

/-- Python `' '.join(ws)`. -/
def joinSpace (ws : List Str) : Str :=
  match ws with
  | [] => []
  | [w] => w
  | w :: rest => w ++ ' ' :: joinSpace rest

/-- A node of a parsed HTML fragment as BeautifulSoup sees it: markup (tags,
which carry no text content) or a text node.  A raw string field is modelled
by its parse, a list of such nodes. -/
inductive HNode where
  | tag (raw : Str)
  | text (s : Str)
deriving DecidableEq

/-- A parsed HTML fragment. -/
abbrev Frag := List HNode

/-- The text nodes of a fragment, in document order. -/
def textPieces : Frag → List Str
  | [] => []
  | .tag _ :: rest => textPieces rest
  | .text s :: rest => s :: textPieces rest

/-- The raw string a fragment was parsed from (tags keep their markup text). -/
def renderFrag : Frag → Str
  | [] => []
  | .tag r :: rest => r ++ renderFrag rest
  | .text s :: rest => s ++ renderFrag rest

/-- `soup.get_text(separator=' ', strip=True)` from `_clean_html_content`:
every text node stripped, empty results skipped, the rest joined by `' '`. -/
def getTextSpaceStrip (f : Frag) : Str :=
  joinSpace (((textPieces f).map stripCh).filter (fun s => !s.isEmpty))

/-- `SupremeCourtScraper._clean_html_content`: strip the markup with
BeautifulSoup's `get_text(separator=' ', strip=True)`, then collapse the
whitespace with `' '.join(cleaned_text.split())`. -/
def cleanHtmlContent (f : Frag) : Str :=
  joinSpace (pyWords (getTextSpaceStrip f))

/-- The whitespace-separated words of a fragment's text content; the quantity
`_clean_html_content` is determined by. -/
def fragWords (f : Frag) : List Str :=
  ((textPieces f).map pyWords).flatten

/-- The per-field cleaning step of `_save_judgments_to_mongodb`: list values
are kept as they are, truthy strings are cleaned, falsy ones map to `""`. -/
def cleanField (f : Frag) : Str :=
  if renderFrag f = [] then [] else cleanHtmlContent f

/-- `str.replace(a, b)` for single characters. -/
def replChar (a b : Char) (s : Str) : Str :=
  s.map (fun c => if c = a then b else c)

/-- The synthetic id of `_save_judgments_to_mongodb`:
`f"{diary_no}_{case_number}_{judgment_date}".replace('/', '_').replace(' ', '_').replace(':', '_')`. -/
def judgmentId (diary caseNo date : Str) : Str :=
  replChar ':' '_' (replChar ' ' '_' (replChar '/' '_' (diary ++ '_' :: caseNo ++ '_' :: date)))

/-- A raw judgment mapping as handed to `_save_judgments_to_mongodb`.  Scalar
fields are parsed fragments (the strings may carry HTML markup); every key is
modelled as present, an absent key being the empty fragment. -/
structure RawRecord where
  serial_number : Frag
  diary_number : Frag
  diary_no : Frag
  case_number : Frag
  petitioner_respondent : Frag
  advocate : Frag
  bench : Frag
  judgment_by : Frag
  judgment_date : Frag
  pdf_links : List Str
  judgment_links : List Str
  pdf_link : Frag
deriving DecidableEq

/-- `cleaned_judgment.get('diary_number') or cleaned_judgment.get('diary_no', '')`. -/
def diaryKey (r : RawRecord) : Str :=
  if cleanField r.diary_number ≠ [] then cleanField r.diary_number else cleanField r.diary_no

/-- The `judgment_id` the reconciler computes for a raw record. -/
def judgmentIdOf (r : RawRecord) : Str :=
  judgmentId (diaryKey r) (cleanField r.case_number) (cleanField r.judgment_date)

/-- The body of `datetime._days_before_year` with `y = year - 1`:
`y*365 + y//4 - y//100 + y//400`. -/
def gdays (y : ℕ) : ℕ := 365 * y + y / 4 - y / 100 + y / 400

/-- `datetime._days_before_year`: days of the proleptic Gregorian calendar
before January 1 of the given year. -/
def daysBeforeYear (year : ℕ) : ℕ := gdays (year - 1)

/-- `datetime(year, 1, 1).toordinal()`. -/
def jan1Ordinal (year : ℕ) : ℕ := daysBeforeYear year + 1

/-- `datetime(year, 12, 31).toordinal()`. -/
def dec31Ordinal (year : ℕ) : ℕ := daysBeforeYear (year + 1)

/-- The loop of `DateManager.generate_date_ranges` on day ordinals: while
`current ≤ end`, yield `(current, min (current + max_days - 1) end)` and
resume at the day after the chunk's end.  `fuel` bounds the iteration count;
any `fuel ≥ end + 1 - current` yields the loop's full output. -/
def genRangesGo (endD maxDays : ℕ) : ℕ → ℕ → List (ℕ × ℕ)
  | 0, _ => []
  | fuel + 1, cur =>
    if cur ≤ endD then
      (cur, min (cur + maxDays - 1) endD) ::
        genRangesGo endD maxDays fuel (min (cur + maxDays - 1) endD + 1)
    else []

/-- `DateManager.generate_date_ranges`: partition
`[Jan 1 startYear, Dec 31 endYear]` into chunks of at most `maxDays` days. -/
def generateDateRanges (startYear endYear maxDays : ℕ) : List (ℕ × ℕ) :=
  genRangesGo (dec31Ordinal endYear) maxDays (dec31Ordinal endYear + 1) (jan1Ordinal startYear)

/-- The inclusive list of day ordinals a date range covers. -/
def daysList : ℕ × ℕ → List ℕ
  | (a, b) => List.range' a (b + 1 - a)

/-- A concrete raw record with plain-text identity fields. -/
def c2recA : RawRecord where
  serial_number := [.text (str "1")]
  diary_number := [.text (str "228/2011")]
  diary_no := [.text (str "228/2011")]
  case_number := [.text (str "C.A. No.-009098")]
  petitioner_respondent := [.text (str "A vs B")]
  advocate := [.text (str "Adv X")]
  bench := [.text (str "Bench Y")]
  judgment_by := [.text (str "Judge Z")]
  judgment_date := [.text (str "02-01-2024")]
  pdf_links := []
  judgment_links := []
  pdf_link := []

/-- The same logical record with HTML markup (of varying capitalization) and
extra whitespace around the same identity values. -/
def c2recB : RawRecord where
  serial_number := [.text (str "1")]
  diary_number := [.tag (str "<B>"), .text (str "  228/2011 "), .tag (str "</B>")]
  diary_no := [.tag (str "<b>"), .text (str "228/2011"), .tag (str "</b>")]
  case_number := [.text (str " C.A.  No.-009098")]
  petitioner_respondent := [.text (str "A vs B")]
  advocate := [.text (str "Adv X")]
  bench := [.text (str "Bench Y")]
  judgment_by := [.text (str "Judge Z")]
  judgment_date := [.tag (str "<span>"), .text (str "02-01-2024"), .tag (str "</span>")]
  pdf_links := []
  judgment_links := []
  pdf_link := []

/-- A date range identified by the `(start_date, end_date)` ordinal pair —
the tuple `get_remaining_ranges` builds its completed set from. -/
abbrev Range := ℕ × ℕ

/-- The progress document written by `DateManager.save_progress` (the
timestamp and count fields are derived and carry no further information). -/
structure ProgressData where
  completed : List Range
  failed : List Range
deriving DecidableEq

/-- `DateManager.load_progress`: `none` models a missing progress file or one
whose read raises (both branches return `([], [])`). -/
def loadProgress : Option ProgressData → List Range × List Range
  | none => ([], [])
  | some p => (p.completed, p.failed)

/-- `DateManager.get_remaining_ranges`: the generated ranges whose
`(start, end)` tuple is not in the completed set, in generation order, with
the failed ranges appended for retry. -/
def getRemainingRanges (allRanges : List Range) (stored : Option ProgressData) : List Range :=
  (allRanges.filter (fun r => decide (r ∉ (loadProgress stored).1)))
    ++ (loadProgress stored).2

/-- The progress bookkeeping of `SupremeCourtScraper.run`: `completed_ranges`
and `failed_ranges` start as empty lists, each remaining range is appended to
one of them according to `process_date_range`'s outcome (`ok`), and
`save_progress` persists exactly these two lists — periodically every 10
ranges and unconditionally at run end.  This is the document the final save
writes. -/
def runFinalProgress (allRanges : List Range) (stored : Option ProgressData)
    (ok : Range → Bool) : ProgressData :=
  ⟨(getRemainingRanges allRanges stored).filter ok,
    (getRemainingRanges allRanges stored).filter (fun r => !ok r)⟩

/-- A document of the judgments collection: the unique id plus the content
fields the duplicate query consults (the remaining metadata does not affect
the reconciler's decisions). -/
structure StoredDoc where
  judgment_id : Str
  diary_no : Str
  case_number : Str
  judgment_date : Str
deriving DecidableEq

/-- The judgments collection, in insertion order. -/
abbrev Store := List StoredDoc

/-- `MongoDBClient.find_duplicate_by_content`: `find_one` on the exact
`{diary_no, case_number, judgment_date}` query (the reconciler always passes
strings, so the `None`-removal step drops nothing), answering the match's
`judgment_id`. -/
def findDuplicateByContent (s : Store) (diary caseNo date : Str) : Option Str :=
  (s.find? (fun doc =>
      decide (doc.diary_no = diary ∧ doc.case_number = caseNo ∧ doc.judgment_date = date))).map
    (fun doc => doc.judgment_id)

/-- `MongoDBClient.judgment_exists`: `count_documents({"judgment_id": id}) > 0`. -/
def judgmentExists (s : Store) (id : Str) : Bool :=
  s.any (fun doc => decide (doc.judgment_id = id))

/-- `MongoDBClient.insert_judgment`: `insert_one` appends the document and
returns `True`, unless the unique index on `judgment_id` raises
`DuplicateKeyError`, in which case the store is unchanged and it returns
`False`. -/
def insertJudgment (s : Store) (doc : StoredDoc) : Store × Bool :=
  if judgmentExists s doc.judgment_id then (s, false) else (s ++ [doc], true)

/-- The cleaned identity triple `(diary_no, case_number, judgment_date)` that
`_save_judgments_to_mongodb` computes for a raw record. -/
def identityOf (r : RawRecord) : Str × Str × Str :=
  (diaryKey r, cleanField r.case_number, cleanField r.judgment_date)

/-- One iteration of `_save_judgments_to_mongodb`'s loop: clean the fields,
look up a content duplicate, then an id duplicate, and only otherwise insert;
the result is the new store plus the saved/duplicate flags of this record. -/
def reconcileOne (st : Store) (r : RawRecord) : Store × Bool × Bool :=
  match identityOf r with
  | (d, c, j) =>
    match findDuplicateByContent st d c j with
    | some _ => (st, false, true)
    | none =>
      match judgmentExists st (judgmentId d c j) with
      | true => (st, false, true)
      | false =>
        match insertJudgment st ⟨judgmentId d c j, d, c, j⟩ with
        | (st', okIns) => (st', okIns, false)

/-- `_save_judgments_to_mongodb` over a batch: fold the loop, counting saved
and duplicate records. -/
def saveJudgmentsToMongo (rs : List RawRecord) (st : Store) : Store × ℕ × ℕ :=
  rs.foldl
    (fun acc r =>
      match reconcileOne acc.1 r with
      | (st', ok, dup) =>
        (st', acc.2.1 + (if ok then 1 else 0), acc.2.2 + (if dup then 1 else 0)))
    (st, 0, 0)

/-- A concrete raw record for exercising the reconciler. -/
def c5recA : RawRecord where
  serial_number := [.text (str "1")]
  diary_number := [.text (str "500/2019")]
  diary_no := [.text (str "500/2019")]
  case_number := [.text (str "C.A. No.-1")]
  petitioner_respondent := []
  advocate := []
  bench := []
  judgment_by := []
  judgment_date := [.text (str "05-06-2019")]
  pdf_links := []
  judgment_links := []
  pdf_link := []

/-- The same logical record submitted a second time (different markup, same
normalized identity). -/
def c5recB : RawRecord where
  serial_number := [.text (str "1")]
  diary_number := [.tag (str "<td>"), .text (str " 500/2019 "), .tag (str "</td>")]
  diary_no := [.text (str "500/2019")]
  case_number := [.text (str "C.A.  No.-1")]
  petitioner_respondent := []
  advocate := []
  bench := []
  judgment_by := []
  judgment_date := [.text (str "05-06-2019")]
  pdf_links := []
  judgment_links := []
  pdf_link := []

/-- A response event as `_handle_response` sees it: URL, HTTP status, the
`content-type` header, all headers, and the outcome of `response.body()` —
`none` when the read raises, otherwise the `utf-8`-decoded body (empty iff
the byte string is empty). -/
structure RespEvent where
  url : Str
  status : ℕ
  contentType : Str
  headers : List (Str × Str)
  bodyRead : Option Str
  timestamp : Str

/-- An entry of `captured_responses`. -/
structure CapturedEntry where
  url : Str
  status : ℕ
  headers : List (Str × Str)
  body : Str
  timestamp : Str
deriving DecidableEq

/-- The fixed interest keywords of `_handle_request`/`_handle_response`. -/
def keywordHit (url : Str) : Bool :=
  [str "api", str "ajax", str "search", str "judgment", str "result"].any
    (fun k => containsSub k (lowerStr url))

/-- `any(ct in content_type.lower() for ct in ['json', 'html', 'xml', 'text'])`. -/
def textualContentType (ct : Str) : Bool :=
  [str "json", str "html", str "xml", str "text"].any (fun c => containsSub c (lowerStr ct))

/-- The `response_data` dictionary appended for a captured response. -/
def entryOf (e : RespEvent) (body : Str) : CapturedEntry :=
  ⟨e.url, e.status, e.headers, body, e.timestamp⟩

/-- The exact condition under which `_handle_response` appends an entry:
status 200, keyword in the URL, textual content-type, and a successful body
read yielding a truthy (non-empty) byte string. -/
def shouldCapture (e : RespEvent) : Bool :=
  decide (e.status = 200) && keywordHit e.url && textualContentType e.contentType
    && (match e.bodyRead with
        | some b => !b.isEmpty
        | none => false)

/-- `SupremeCourtScraper._handle_response` acting on `captured_responses`:
every branch either appends one entry or leaves the list untouched; a failed
body read is swallowed. -/
def handleResponse (captured : List CapturedEntry) (e : RespEvent) : List CapturedEntry :=
  if decide (e.status = 200) && keywordHit e.url then
    if textualContentType e.contentType then
      match e.bodyRead with
      | some b => if b.isEmpty then captured else captured ++ [entryOf e b]
      | none => captured
    else captured
  else captured

/-- A response event whose body read succeeds with an empty byte string. -/
def c9emptyBodyEvent : RespEvent where
  url := str "https://example.org/api/search"
  status := 200
  contentType := str "text/html"
  headers := []
  bodyRead := some []
  timestamp := []

/-- A response event that is captured. -/
def c9okEvent : RespEvent where
  url := str "https://example.org/api/search"
  status := 200
  contentType := str "text/html"
  headers := []
  bodyRead := some (str "<table></table>")
  timestamp := []

/-- An anchor element: `link.get('href')` (`none` when the attribute is
absent), `link.get_text(strip=True)`, and `link.get('onclick', '')`. -/
structure Anchor where
  href? : Option Str
  text : Str
  onclick : Str
deriving DecidableEq

/-- A table cell: `cell.get_text(strip=True)` and `cell.find_all('a')`. -/
structure Cell where
  txt : Str
  anchors : List Anchor
deriving DecidableEq

/-- A table row (`tr`): its `td` cells. -/
structure Row where
  cells : List Cell
deriving DecidableEq

/-- A table: an optional `tbody` with its rows, and the table-wide `tr` list
that `find_all('tr')` returns. -/
structure Table where
  tbody? : Option (List Row)
  trs : List Row
deriving DecidableEq

/-- A parsed document: its tables in document order (`soup.find('table')`
is the head). -/
abbrev Soup := List Table

/-- The shared row selection of `_parse_table_from_soup` and
`extract_judgment_links`: the `tbody`'s rows when one exists, else all rows
minus a header row when there is more than one. -/
def rowsOfTable (t : Table) : List Row :=
  match t.tbody? with
  | some rs => rs
  | none => if t.trs.length > 1 then t.trs.tail else t.trs

/-- The raw judgment dictionary built by the extractors; `none` models an
absent key. -/
structure Judgment where
  serial_number : Option Str := none
  serial_no : Option Str := none
  diary_number : Option Str := none
  diary_no : Option Str := none
  case_number : Option Str := none
  petitioner_respondent : Option Str := none
  title : Option Str := none
  advocate : Option Str := none
  bench : Option Str := none
  judgment_by : Option Str := none
  judge : Option Str := none
  judgment_date : Option Str := none
  pdf_links : Option (List Str) := none
  judgment_links : Option (List Str) := none
  pdf_link : Option Str := none
  file_url : Option Str := none
deriving DecidableEq

/-- The placeholder URL `'https://api.sci.gov.in/'`. -/
def apiBase : Str := str "https://api.sci.gov.in/"

/-- `'.pdf' in href.lower() or 'download' in href.lower() or 'judgment' in href.lower()`. -/
def hrefDocHit (href : Str) : Bool :=
  containsSub (str ".pdf") (lowerStr href) || containsSub (str "download") (lowerStr href)
    || containsSub (str "judgment") (lowerStr href)

/-- `'pdf' in onclick.lower() or 'download' in onclick.lower()`. -/
def onclickDocHit (oc : Str) : Bool :=
  containsSub (str "pdf") (lowerStr oc) || containsSub (str "download") (lowerStr oc)

/-- `re.search(r'(\d{2}-\d{2}-\d{4})', ·)`: does a `dd-dd-dddd` window start
here?  (ASCII digits; the scraper's dates are ASCII.) -/
def dateAt (l : Str) : Option Str :=
  match l with
  | d1 :: d2 :: h1 :: d3 :: d4 :: h2 :: d5 :: d6 :: d7 :: d8 :: _ =>
    if d1.isDigit && d2.isDigit && (h1 == '-') && d3.isDigit && d4.isDigit && (h2 == '-')
        && d5.isDigit && d6.isDigit && d7.isDigit && d8.isDigit then
      some [d1, d2, h1, d3, d4, h2, d5, d6, d7, d8]
    else none
  | _ => none

/-- `re.search(r'(\d{2}-\d{2}-\d{4})', text)`: the leftmost match. -/
def findDateMatch : Str → Option Str
  | [] => none
  | c :: rest =>
    match dateAt (c :: rest) with
    | some d => some d
    | none => findDateMatch rest

/-- The anchor loop over the judgment cell in `_extract_judgment_from_cells`:
skip empty and placeholder hrefs, collect document-pattern hrefs (in order,
first one primary), and on an onclick that mentions pdf/download reach the
`re.search` whose pattern has an unbalanced parenthesis — `re.error` is
raised, modelled as `Except.error` (the caller's `except` turns it into a
discarded row). -/
def collectCellLinks : List Anchor → Except Unit (List Str × List Str × Option Str)
  | [] => .ok ([], [], none)
  | a :: rest =>
    let href := stripCh (a.href?.getD [])
    if href = [] ∨ href = apiBase then collectCellLinks rest
    else if hrefDocHit href then
      match collectCellLinks rest with
      | .error e => .error e
      | .ok (pls, jls, _) => .ok (href :: pls, href :: jls, some href)
    else if a.onclick ≠ [] ∧ onclickDocHit a.onclick then .error ()
    else collectCellLinks rest

/-- The per-cell part of the fallback link scan (raw href, no strip before
matching; the malformed onclick regex again raises). -/
def fallbackAnchors : List Anchor → Except Unit (Option Str)
  | [] => .ok none
  | a :: rest =>
    let href := a.href?.getD []
    if href ≠ [] ∧ hrefDocHit href then .ok (some href)
    else if a.onclick ≠ [] ∧ onclickDocHit a.onclick then .error ()
    else fallbackAnchors rest

/-- The fallback scan over every cell, stopping at the first link found. -/
def fallbackCells : List Cell → Except Unit (Option Str)
  | [] => .ok none
  | c :: rest =>
    match fallbackAnchors c.anchors with
    | .error e => .error e
    | .ok (some h) => .ok (some h)
    | .ok none => fallbackCells rest

/-- The final keep test of `_extract_judgment_from_cells`: a truthy
`case_number` or `pdf_link`. -/
def finalKeep (j : Judgment) : Option Judgment :=
  if (j.case_number.getD []) ≠ [] ∨ (j.pdf_link.getD []) ≠ [] then some j else none

/-- The `if not judgment.get('pdf_link')` fallback block followed by the keep
test. -/
def afterFallback (j : Judgment) (cells : List Cell) : Option Judgment :=
  if (j.pdf_link.getD []) = [] then
    match fallbackCells cells with
    | .error _ => none
    | .ok (some h) => finalKeep { j with pdf_link := some h, file_url := some h }
    | .ok none => finalKeep j
  else finalKeep j

/-- The positional cell-to-field mapping (`if len(cells) >= k` blocks) of
`_extract_judgment_from_cells`. -/
def baseJudgment (cells : List Cell) : Judgment where
  serial_number := (cells[0]?).map Cell.txt
  serial_no := (cells[0]?).map Cell.txt
  diary_number := (cells[1]?).map Cell.txt
  diary_no := (cells[1]?).map Cell.txt
  case_number := (cells[2]?).map Cell.txt
  petitioner_respondent := (cells[3]?).map Cell.txt
  title := (cells[3]?).map Cell.txt
  advocate := (cells[4]?).map Cell.txt
  bench := (cells[5]?).map Cell.txt
  judgment_by := (cells[6]?).map Cell.txt
  judge := (cells[6]?).map Cell.txt

/-- `SupremeCourtScraper._extract_judgment_from_cells`: positional fields,
the judgment-cell date (regex match, else first line stripped), the link
collection, the fallback scan, and the keep test; any raised `re.error` is
caught by the function's `except` and yields `None`. -/
def extractJudgmentFromCells (cells : List Cell) : Option Judgment :=
  let j0 := baseJudgment cells
  match cells[7]? with
  | some jcell =>
    let jdate :=
      match findDateMatch jcell.txt with
      | some d => d
      | none => stripCh (jcell.txt.takeWhile (fun c => c != '\n'))
    let j1 := { j0 with judgment_date := some jdate }
    match collectCellLinks jcell.anchors with
    | .error _ => none
    | .ok (pls, jls, prim) =>
      let j2 :=
        if pls ≠ [] then
          { j1 with
            pdf_links := some pls
            judgment_links := some jls
            pdf_link := prim
            file_url := prim }
        else j1
      afterFallback j2 cells
  | none => afterFallback j0 cells

/-- `SupremeCourtScraper._parse_table_from_soup`: first table, header-skip,
rows with at least 3 cells through `_extract_judgment_from_cells`. -/
def parseTableFromSoup (soup : Soup) : List Judgment :=
  match soup.head? with
  | none => []
  | some t =>
    (rowsOfTable t).filterMap (fun row =>
      if row.cells.length ≥ 3 then extractJudgmentFromCells row.cells else none)

/-- JSON values as `_parse_json_for_judgments` distinguishes them. -/
inductive Json where
  | str (s : Str)
  | arr (items : List Json)
  | obj (fields : List (Str × Json))

/-- `key in d` / `d[key]` on a JSON object. -/
def jsonLookup (fields : List (Str × Json)) (k : Str) : Option Json :=
  (fields.find? (fun p => p.1 == k)).map (fun p => p.2)

/-- Python truthiness of a JSON value. -/
def jsonTruthy : Json → Bool
  | .str s => !s.isEmpty
  | .arr a => !a.isEmpty
  | .obj f => !f.isEmpty

/-- `str(value)`: the identity on strings.  The claims never reach this with
a container value; the fixed renderings stand in for Python's `repr` there. -/
def jsonToStr : Json → Str
  | .str s => s
  | .arr _ => str "[...]"
  | .obj _ => str "(dict)"

/-- `if key in item and item[key]: judgment[field] = str(item[key]).strip()`
over the alias list of one field. -/
def firstKeyVal (item : List (Str × Json)) (keys : List Str) : Option Str :=
  match keys with
  | [] => none
  | k :: rest =>
    match jsonLookup item k with
    | some v => if jsonTruthy v then some (stripCh (jsonToStr v)) else firstKeyVal item rest
    | none => firstKeyVal item rest

/-- `SupremeCourtScraper._extract_judgment_from_json_item`: map the alias
table onto the judgment fields and keep the item only with a truthy case
number or pdf link. -/
def extractJudgmentFromJsonItem (item : List (Str × Json)) : Option Judgment :=
  let j : Judgment :=
    { serial_no := firstKeyVal item [str "serial", str "sno", str "id", str "index"]
      diary_no := firstKeyVal item [str "diary", str "diary_no", str "diary_number"]
      case_number := firstKeyVal item
        [str "case", str "case_no", str "case_number", str "caseNumber"]
      petitioner_respondent := firstKeyVal item
        [str "parties", str "petitioner", str "respondent", str "case_title"]
      advocate := firstKeyVal item [str "advocate", str "lawyer", str "counsel"]
      judgment_date := firstKeyVal item
        [str "date", str "judgment_date", str "judgmentDate", str "decided_on"]
      pdf_link := firstKeyVal item
        [str "link", str "url", str "pdf", str "download", str "file_url"] }
  if (j.case_number.getD []) ≠ [] ∨ (j.pdf_link.getD []) ≠ [] then some j else none

/-- The dict items of a JSON list through `_extract_judgment_from_json_item`. -/
def itemsJudgments (items : List Json) : List Judgment :=
  items.filterMap (fun it =>
    match it with
    | .obj ifields => extractJudgmentFromJsonItem ifields
    | _ => none)

/-- The scan over the known result keys `data, results, judgments, records,
items` for list values. -/
def scanKeys (fields : List (Str × Json)) : List Judgment :=
  [str "data", str "results", str "judgments", str "records", str "items"].foldl
    (fun acc k =>
      match jsonLookup fields k with
      | some (.arr items) => acc ++ itemsJudgments items
      | _ => acc) []

/-- `SupremeCourtScraper._parse_json_for_judgments`, parameterized by the
(external) HTML parser both strategies share: the `data.resultsHtml` envelope
is handed to the HTML-table strategy when its parse yields records, otherwise
the known list-valued keys are scanned; a non-string `resultsHtml` makes
`BeautifulSoup` raise, caught with nothing accumulated. -/
def parseJsonForJudgments (parseHtml : Str → Soup) : Json → List Judgment
  | .obj fields =>
    (match jsonLookup fields (str "data") with
      | some (.obj dfields) =>
        match jsonLookup dfields (str "resultsHtml") with
        | some (.str htmlContent) =>
          let tj := parseTableFromSoup (parseHtml htmlContent)
          if tj ≠ [] then tj else scanKeys fields
        | some _ => []
        | none => scanKeys fields
      | _ => scanKeys fields)
  | .arr items => itemsJudgments items
  | .str _ => []

/-- A record emitted by `extract_judgment_links`' live-DOM fallback: one
entry per valid link, the link flattened into the single `file_url`. -/
structure DomRecord where
  serial_no : Str
  diary_no : Str
  case_number : Str
  title : Str
  advocate : Str
  bench : Str
  judge : Str
  judgment_date : Str
  file_url : Str
  link_text : Str
deriving DecidableEq

/-- `'.pdf' in href.lower() or 'api.sci.gov.in' in href or 'supremecourt' in href.lower()`. -/
def domDocHit (href : Str) : Bool :=
  containsSub (str ".pdf") (lowerStr href) || containsSub (str "api.sci.gov.in") href
    || containsSub (str "supremecourt") (lowerStr href)

/-- The row loop of `extract_judgment_links`: rows with fewer than 7 cells
are skipped; with exactly 7, the bench column doubles as the judge and the
seventh cell is the judgment cell; `find_all('a', href=True)` anchors pass
the permissive href filter and the placeholder/empty-link-text skip, a date
is drawn from the link text, and each link becomes its own record with the
stripped href as `file_url`. -/
def domRow (cells : List Cell) : List DomRecord :=
  match cells with
  | c0 :: c1 :: c2 :: c3 :: c4 :: c5 :: c6 :: rest =>
    let judgeBy := match rest with | _ :: _ => c6.txt | [] => c5.txt
    let jcell := match rest with | c7 :: _ => c7 | [] => c6
    (jcell.anchors.filter (fun a => a.href?.isSome)).filterMap (fun a =>
      let href := a.href?.getD []
      if href ≠ [] ∧ stripCh href ≠ [] ∧ domDocHit href = true then
        if stripCh href = apiBase ∨ a.text = [] then none
        else
          some ⟨c0.txt, c1.txt, c2.txt, c3.txt, c4.txt, c5.txt, judgeBy,
            (findDateMatch a.text).getD [], stripCh href, a.text⟩
      else none)
  | _ => []

/-- The URL dedup at the end of `extract_judgment_links` (first occurrence of
each `file_url` wins). -/
def dedupeByUrl : List DomRecord → List Str → List DomRecord
  | [], _ => []
  | r :: rest, seen =>
    if r.file_url ∈ seen then dedupeByUrl rest seen
    else r :: dedupeByUrl rest (r.file_url :: seen)

/-- The page-parsing fallback of `SupremeCourtScraper.extract_judgment_links`
(reached when the network responses yielded nothing): first table, header
skip, the per-row link records, then the URL dedup. -/
def extractJudgmentLinksDom (soup : Soup) : List DomRecord :=
  match soup.head? with
  | none => []
  | some t => dedupeByUrl (((rowsOfTable t).map (fun row => domRow row.cells)).flatten) []

/-- An anchor with an href and a link text and no onclick handler. -/
def pdfAnchor (href text : String) : Anchor := ⟨some (str href), str text, []⟩

/-- An 8-cell row whose judgment cell holds two anchors with the identical
href `a.pdf`. -/
def c4cells : List Cell :=
  [⟨str "1", []⟩, ⟨str "228/2011", []⟩, ⟨str "C.A. No.-009098", []⟩, ⟨str "A vs B", []⟩,
    ⟨str "Adv X", []⟩, ⟨str "Bench Y", []⟩, ⟨str "Judge Z", []⟩,
    ⟨str "02-01-2024", [pdfAnchor "a.pdf" "02-01-2024(English)",
      pdfAnchor "a.pdf" "2024 INSC 1(English)"]⟩]

/-- The hrefs `_extract_judgment_from_cells`'s link loop collects from the
judgment cell: stripped, non-empty, non-placeholder, matching the document
pattern; in document order, duplicates retained. -/
def validHrefs : List Anchor → List Str
  | [] => []
  | a :: rest =>
    let href := stripCh (a.href?.getD [])
    if href = [] ∨ href = apiBase then validHrefs rest
    else if hrefDocHit href then href :: validHrefs rest
    else validHrefs rest

/-- An anchor that sends the link loop into the malformed onclick regex: a
kept href matching no document pattern together with a pdf/download onclick. -/
def onclickTrap (a : Anchor) : Bool :=
  (!(decide (stripCh (a.href?.getD []) = [] ∨ stripCh (a.href?.getD []) = apiBase)))
    && (!hrefDocHit (stripCh (a.href?.getD [])))
    && (decide (a.onclick ≠ [])) && onclickDocHit a.onclick

/-- The claim's scenario row: two distinct `.pdf` anchors in the judgment
cell. -/
def c4wcells : List Cell :=
  [⟨str "1", []⟩, ⟨str "228/2011", []⟩, ⟨str "C.A. No.-009098", []⟩, ⟨str "A vs B", []⟩,
    ⟨str "Adv X", []⟩, ⟨str "Bench Y", []⟩, ⟨str "Judge Z", []⟩,
    ⟨str "02-01-2024", [pdfAnchor "a.pdf" "02-01-2024(English)",
      pdfAnchor "b.pdf" "2024 INSC 1(English)"]⟩]

/-- A table whose single (tbody) row has three cells and a case number but no
links. -/
def c8table : Table where
  tbody? := some [⟨[⟨str "1", []⟩, ⟨str "228/2011", []⟩, ⟨str "C.A. No.-1", []⟩]⟩]
  trs := [⟨[⟨str "1", []⟩, ⟨str "228/2011", []⟩, ⟨str "C.A. No.-1", []⟩]⟩]

/-- The cells of an 8-cell row with one valid `.pdf` anchor, kept by both
parsers. -/
def c8c0 : Cell := ⟨str "1", []⟩

/-- Second cell of the C8 witness row. -/
def c8c1 : Cell := ⟨str "228/2011", []⟩

/-- Third cell of the C8 witness row. -/
def c8c2 : Cell := ⟨str "C.A. No.-009098", []⟩

/-- Fourth cell of the C8 witness row. -/
def c8c3 : Cell := ⟨str "A vs B", []⟩

/-- Fifth cell of the C8 witness row. -/
def c8c4 : Cell := ⟨str "Adv X", []⟩

/-- Sixth cell of the C8 witness row. -/
def c8c5 : Cell := ⟨str "Bench Y", []⟩

/-- Seventh cell of the C8 witness row. -/
def c8c6 : Cell := ⟨str "Judge Z", []⟩

/-- Judgment cell of the C8 witness row. -/
def c8c7 : Cell := ⟨str "02-01-2024", [pdfAnchor "x.pdf" "02-01-2024(English)"]⟩

/-- The record the DOM fallback emits for `c8wcells`. -/
def c8wr : DomRecord :=
  ⟨str "1", str "228/2011", str "C.A. No.-009098", str "A vs B", str "Adv X", str "Bench Y",
    str "Judge Z", str "02-01-2024", str "x.pdf", str "02-01-2024(English)"⟩

/-- The judgment the HTML-table strategy extracts from the C8 witness row. -/
def c8wj : Judgment where
  serial_number := some (str "1")
  serial_no := some (str "1")
  diary_number := some (str "228/2011")
  diary_no := some (str "228/2011")
  case_number := some (str "C.A. No.-009098")
  petitioner_respondent := some (str "A vs B")
  title := some (str "A vs B")
  advocate := some (str "Adv X")
  bench := some (str "Bench Y")
  judgment_by := some (str "Judge Z")
  judge := some (str "Judge Z")
  judgment_date := some (str "02-01-2024")
  pdf_links := some [str "x.pdf"]
  judgment_links := some [str "x.pdf"]
  pdf_link := some (str "x.pdf")
  file_url := some (str "x.pdf")

/-- The UTF-8 bytes of a string, as `str.encode()` produces them. -/
def utf8Bytes (s : Str) : List ℕ :=
  (s.map (fun c => (String.utf8EncodeChar c).map UInt8.toNat)).flatten

/-- Bitwise NOT within 32 bits (valid for arguments below `2^32`). -/
def compl32 (x : ℕ) : ℕ := 4294967295 - x

/-- 32-bit left rotation. -/
def rotl32 (x n : ℕ) : ℕ := ((x <<< n) ||| (x >>> (32 - n))) % 4294967296

/-- The MD5 sine-derived constants `K[0..63]` (RFC 1321). -/
def md5K : List ℕ :=
  [0xd76aa478, 0xe8c7b756, 0x242070db, 0xc1bdceee,
   0xf57c0faf, 0x4787c62a, 0xa8304613, 0xfd469501,
   0x698098d8, 0x8b44f7af, 0xffff5bb1, 0x895cd7be,
   0x6b901122, 0xfd987193, 0xa679438e, 0x49b40821,
   0xf61e2562, 0xc040b340, 0x265e5a51, 0xe9b6c7aa,
   0xd62f105d, 0x02441453, 0xd8a1e681, 0xe7d3fbc8,
   0x21e1cde6, 0xc33707d6, 0xf4d50d87, 0x455a14ed,
   0xa9e3e905, 0xfcefa3f8, 0x676f02d9, 0x8d2a4c8a,
   0xfffa3942, 0x8771f681, 0x6d9d6122, 0xfde5380c,
   0xa4beea44, 0x4bdecfa9, 0xf6bb4b60, 0xbebfbc70,
   0x289b7ec6, 0xeaa127fa, 0xd4ef3085, 0x04881d05,
   0xd9d4d039, 0xe6db99e5, 0x1fa27cf8, 0xc4ac5665,
   0xf4292244, 0x432aff97, 0xab9423a7, 0xfc93a039,
   0x655b59c3, 0x8f0ccc92, 0xffeff47d, 0x85845dd1,
   0x6fa87e4f, 0xfe2ce6e0, 0xa3014314, 0x4e0811a1,
   0xf7537e82, 0xbd3af235, 0x2ad7d2bb, 0xeb86d391]

/-- The MD5 per-round shift amounts `s[0..63]`. -/
def md5S : List ℕ :=
  [7, 12, 17, 22, 7, 12, 17, 22, 7, 12, 17, 22, 7, 12, 17, 22,
   5, 9, 14, 20, 5, 9, 14, 20, 5, 9, 14, 20, 5, 9, 14, 20,
   4, 11, 16, 23, 4, 11, 16, 23, 4, 11, 16, 23, 4, 11, 16, 23,
   6, 10, 15, 21, 6, 10, 15, 21, 6, 10, 15, 21, 6, 10, 15, 21]

/-- The MD5 round functions F, G, H, I by round index. -/
def md5F (i b c d : ℕ) : ℕ :=
  if i < 16 then (b &&& c) ||| (compl32 b &&& d)
  else if i < 32 then (d &&& b) ||| (compl32 d &&& c)
  else if i < 48 then b ^^^ c ^^^ d
  else c ^^^ (b ||| compl32 d)

/-- The MD5 message-word schedule. -/
def md5G (i : ℕ) : ℕ :=
  if i < 16 then i
  else if i < 32 then (5 * i + 1) % 16
  else if i < 48 then (3 * i + 5) % 16
  else (7 * i) % 16

/-- Word `j` of a 64-byte block, little-endian. -/
def md5Word (block : List ℕ) (j : ℕ) : ℕ :=
  block.getD (4 * j) 0 + 256 * block.getD (4 * j + 1) 0
    + 65536 * block.getD (4 * j + 2) 0 + 16777216 * block.getD (4 * j + 3) 0

/-- One of the 64 MD5 rounds. -/
def md5Round (block : List ℕ) (st : ℕ × ℕ × ℕ × ℕ) (i : ℕ) : ℕ × ℕ × ℕ × ℕ :=
  match st with
  | (a, b, c, d) =>
    let f := (md5F i b c d + a + md5K.getD i 0 + md5Word block (md5G i)) % 4294967296
    (d, (b + rotl32 f (md5S.getD i 0)) % 4294967296, b, c)

/-- Process one 64-byte block and add the result into the running state. -/
def md5Block (st : ℕ × ℕ × ℕ × ℕ) (block : List ℕ) : ℕ × ℕ × ℕ × ℕ :=
  match st, (List.range 64).foldl (md5Round block) st with
  | (a0, b0, c0, d0), (a, b, c, d) =>
    ((a0 + a) % 4294967296, (b0 + b) % 4294967296, (c0 + c) % 4294967296, (d0 + d) % 4294967296)

/-- MD5 padding: `0x80`, zeros to 56 mod 64, then the bit length as 8
little-endian bytes. -/
def md5Pad (msg : List ℕ) : List ℕ :=
  msg ++ 0x80 :: List.replicate ((56 + 64 - ((msg.length + 1) % 64)) % 64) 0
    ++ (List.range 8).map (fun i => 8 * msg.length / 256 ^ i % 256)

/-- The MD5 initial state. -/
def md5Init : ℕ × ℕ × ℕ × ℕ := (0x67452301, 0xefcdab89, 0x98badcfe, 0x10325476)

/-- A 32-bit word as 4 little-endian bytes. -/
def wordLEBytes (w : ℕ) : List ℕ := [w % 256, w / 256 % 256, w / 65536 % 256, w / 16777216 % 256]

/-- The 16 digest bytes from the final state. -/
def md5Digest : ℕ × ℕ × ℕ × ℕ → List ℕ
  | (a, b, c, d) => wordLEBytes a ++ wordLEBytes b ++ wordLEBytes c ++ wordLEBytes d

/-- `hashlib.md5(msg).digest()`. -/
def md5Bytes (msg : List ℕ) : List ℕ :=
  let padded := md5Pad msg
  md5Digest (((List.range (padded.length / 64)).map
    (fun i => (padded.drop (64 * i)).take 64)).foldl md5Block md5Init)

/-- A lowercase hex digit. -/
def hexDigit (n : ℕ) : Char := (str "0123456789abcdef").getD n '0'

/-- A byte as two lowercase hex digits. -/
def byteHex (b : ℕ) : List Char := [hexDigit (b / 16), hexDigit (b % 16)]

/-- `hashlib.md5(msg).hexdigest()`. -/
def md5Hex (msg : List ℕ) : Str := ((md5Bytes msg).map byteHex).flatten

/-- The fields of `JudgmentMetadata` that `generate_id` consults (`none`
models Python `None`). -/
structure MetaFields where
  court_type : Str
  case_number : Option Str
  diary_no : Option Str
  judgment_date : Option Str
  judge : Option Str

/-- `generate_id`'s `id_string`:
`f"{court_type}_{case_number or ''}_{diary_no or ''}_{judgment_date or ''}_{judge or ''}"`. -/
def idString (m : MetaFields) : Str :=
  m.court_type ++ ('_' :: (m.case_number.getD [] ++ ('_' :: (m.diary_no.getD []
    ++ ('_' :: (m.judgment_date.getD [] ++ ('_' :: m.judge.getD [])))))))

/-- `JudgmentMetadata.generate_id`: the MD5 hex digest of the UTF-8 encoded
id string. -/
def generateId (m : MetaFields) : Str := md5Hex (utf8Bytes (idString m))

/-- `JudgmentMetadata.__post_init__`: a falsy (empty) `judgment_id` is
replaced by `generate_id()`. -/
def postInitId (m : MetaFields) (given : Str) : Str :=
  if given = [] then generateId m else given

/-- A digest byte list as a natural number (little-endian base 256). -/
def natOfBytes : List ℕ → ℕ
  | [] => 0
  | b :: t => b + 256 * natOfBytes t

/-- A judge string of length `n`. -/
def judgeOfNat (n : ℕ) : Str := List.replicate n 'a'

/-- Metadata records that agree on everything but the judge. -/
def metaOfNat (n : ℕ) : MetaFields :=
  ⟨str "supreme_court", some (str "1"), some (str "2"), some (str "3"), some (judgeOfNat n)⟩

/-- A concrete metadata record. -/
def c10m : MetaFields :=
  ⟨str "supreme_court", some (str "2"), some (str "1"), some (str "3"), some (str "J")⟩

/-- The record `c10m` with a different judge. -/
def c10mb : MetaFields :=
  ⟨str "supreme_court", some (str "2"), some (str "1"), some (str "3"), some (str "K")⟩

end SCS

namespace SCS

theorem wfoldr_absorb (a : List Char) (K : List Str) :
    a.foldr wstep ([], K) = ((a.foldr wstep ([], [])).1, (a.foldr wstep ([], [])).2 ++ K) := by
  induction a with
  | nil => simp
  | cons c t ih =>
    simp only [List.foldr_cons, ih, wstep]
    by_cases hw : c.isWhitespace
    · simp only [hw, if_true]
      by_cases h1 : (t.foldr wstep ([], [])).1 = []
      · simp [h1]
      · simp [h1]
    · simp [hw]

theorem pyWords_append_ws (a b : List Char) (c : Char) (hc : c.isWhitespace) :
    pyWords (a ++ c :: b) = pyWords a ++ pyWords b := by
  unfold pyWords
  rw [List.foldr_append]
  have hmid : List.foldr wstep ([], []) (c :: b) = ([], wfinish (b.foldr wstep ([], []))) := by
    simp only [List.foldr_cons, wstep, hc, if_true, wfinish]
  rw [hmid, wfoldr_absorb a (wfinish (b.foldr wstep ([], [])))]
  unfold wfinish
  by_cases h : (a.foldr wstep ([], [])).1 = [] <;> simp [h]

theorem pyWords_all_ws (r : List Char) (hr : ∀ c ∈ r, c.isWhitespace) :
    r.foldr wstep ([], []) = ([], []) := by
  induction r with
  | nil => rfl
  | cons c t ih =>
    simp only [List.foldr_cons, ih (fun x hx => hr x (List.mem_cons_of_mem c hx))]
    simp [wstep, hr c (List.mem_cons_self c t)]

theorem pyWords_append_all_ws (a r : List Char) (hr : ∀ c ∈ r, c.isWhitespace) :
    pyWords (a ++ r) = pyWords a := by
  unfold pyWords
  rw [List.foldr_append, pyWords_all_ws r hr]

theorem pyWords_cons_ws (c : Char) (t : List Char) (hc : c.isWhitespace) :
    pyWords (c :: t) = pyWords t := by
  unfold pyWords
  simp only [List.foldr_cons, wstep, hc, if_true]
  unfold wfinish
  by_cases h : (t.foldr wstep ([], [])).1 = [] <;> simp [h]

theorem pyWords_dropWhile_ws (s : List Char) :
    pyWords (s.dropWhile Char.isWhitespace) = pyWords s := by
  induction s with
  | nil => rfl
  | cons c t ih =>
    by_cases hc : c.isWhitespace
    · rw [List.dropWhile_cons_of_pos (by simpa using hc), ih, pyWords_cons_ws c t hc]
    · rw [List.dropWhile_cons_of_neg (by simpa using hc)]

theorem pyWords_stripCh (s : Str) : pyWords (stripCh s) = pyWords s := by
  unfold stripCh
  set d := s.dropWhile Char.isWhitespace with hd
  have hdecomp : d.reverse = d.reverse.takeWhile Char.isWhitespace ++ d.reverse.dropWhile Char.isWhitespace :=
    (List.takeWhile_append_dropWhile Char.isWhitespace d.reverse).symm
  have hrev : (d.reverse.dropWhile Char.isWhitespace).reverse
      ++ (d.reverse.takeWhile Char.isWhitespace).reverse = d := by
    rw [← List.reverse_append, ← hdecomp, List.reverse_reverse]
  calc pyWords ((d.reverse.dropWhile Char.isWhitespace).reverse)
      = pyWords ((d.reverse.dropWhile Char.isWhitespace).reverse
          ++ (d.reverse.takeWhile Char.isWhitespace).reverse) := by
        rw [pyWords_append_all_ws]
        intro c hc
        rw [List.mem_reverse] at hc
        simpa using List.mem_takeWhile_imp hc
    _ = pyWords d := by rw [hrev]
    _ = pyWords s := pyWords_dropWhile_ws s

theorem pyWords_joinSpace (ws : List Str) :
    pyWords (joinSpace ws) = (ws.map pyWords).flatten := by
  induction ws with
  | nil => rfl
  | cons w rest ih =>
    cases rest with
    | nil => simp [joinSpace]
    | cons w2 r2 =>
      rw [show joinSpace (w :: w2 :: r2) = w ++ ' ' :: joinSpace (w2 :: r2) from rfl]
      rw [pyWords_append_ws w (joinSpace (w2 :: r2)) ' ' (by decide), ih]
      simp

theorem flatten_map_filter_of_nil {α : Type} (g : α → List Str) (p : α → Bool) (l : List α)
    (h : ∀ x ∈ l, p x = false → g x = []) :
    ((l.filter p).map g).flatten = (l.map g).flatten := by
  induction l with
  | nil => rfl
  | cons x t ih =>
    have iht := ih (fun y hy hp => h y (List.mem_cons_of_mem x hy) hp)
    by_cases hp : p x
    · rw [List.filter_cons_of_pos hp]
      simp [iht]
    · rw [List.filter_cons_of_neg (by simpa using hp)]
      simp [iht, h x (List.mem_cons_self x t) (by simpa using hp)]

theorem pyWords_getTextSpaceStrip (f : Frag) :
    pyWords (getTextSpaceStrip f) = fragWords f := by
  unfold getTextSpaceStrip fragWords
  rw [pyWords_joinSpace]
  rw [flatten_map_filter_of_nil pyWords (fun s => !s.isEmpty) ((textPieces f).map stripCh)
      (by
        intro x _ hp
        simp only [Bool.not_eq_false'] at hp
        simp only [List.isEmpty_iff] at hp
        simp [hp, pyWords, wfinish])]
  rw [List.map_map]
  congr 1
  apply List.map_congr_left
  intro a _
  exact pyWords_stripCh a

theorem cleanHtmlContent_eq_joinSpace_fragWords (f : Frag) :
    cleanHtmlContent f = joinSpace (fragWords f) := by
  unfold cleanHtmlContent
  rw [pyWords_getTextSpaceStrip]

theorem textPieces_nil_of_renderFrag_nil (f : Frag) (h : renderFrag f = []) :
    ∀ s ∈ textPieces f, s = [] := by
  induction f with
  | nil => intro s hs; cases hs
  | cons n rest ih =>
    cases n with
    | tag r =>
      simp only [renderFrag, List.append_eq_nil] at h
      exact fun s hs => ih h.2 s hs
    | text s0 =>
      simp only [renderFrag, List.append_eq_nil] at h
      intro s hs
      simp only [textPieces, List.mem_cons] at hs
      rcases hs with hs | hs
      · exact hs.trans h.1
      · exact ih h.2 s hs

theorem cleanField_eq_cleanHtmlContent (f : Frag) :
    cleanField f = cleanHtmlContent f := by
  unfold cleanField
  by_cases h : renderFrag f = []
  · rw [if_pos h, cleanHtmlContent_eq_joinSpace_fragWords]
    have hw : fragWords f = [] := by
      unfold fragWords
      rw [List.flatten_eq_nil_iff]
      intro l hl
      simp only [List.mem_map] at hl
      obtain ⟨s, hs, rfl⟩ := hl
      rw [textPieces_nil_of_renderFrag_nil f h s hs]
      simp [pyWords, wfinish]
    rw [hw]
    rfl
  · rw [if_neg h]

theorem cleanField_congr (f g : Frag) (h : fragWords f = fragWords g) :
    cleanField f = cleanField g := by
  rw [cleanField_eq_cleanHtmlContent, cleanField_eq_cleanHtmlContent,
    cleanHtmlContent_eq_joinSpace_fragWords, cleanHtmlContent_eq_joinSpace_fragWords, h]

theorem gdays_step (n : ℕ) : gdays n + 1 ≤ gdays (n + 1) := by
  unfold gdays
  have h4 : n / 4 ≤ (n + 1) / 4 := Nat.div_le_div_right (by omega)
  have h100a : (n + 100) / 100 = n / 100 + 1 := Nat.add_div_right n (by omega)
  have h100b : (n + 1) / 100 ≤ (n + 100) / 100 := Nat.div_le_div_right (by omega)
  have h400 : n / 400 ≤ (n + 1) / 400 := Nat.div_le_div_right (by omega)
  have hba : n / 100 ≤ n / 4 := Nat.div_le_div_left (by omega) (by omega)
  have hba' : (n + 1) / 100 ≤ (n + 1) / 4 := Nat.div_le_div_left (by omega) (by omega)
  omega

theorem gdays_lt {a b : ℕ} (h : a < b) : gdays a < gdays b := by
  induction b with
  | zero => omega
  | succ b ih =>
    rcases Nat.lt_succ_iff_lt_or_eq.mp h with h' | rfl
    · have := gdays_step b
      have := ih h'
      omega
    · have := gdays_step a
      omega

theorem span_nonempty (startYear endYear : ℕ) (hy : 1 ≤ startYear) (hse : startYear ≤ endYear) :
    jan1Ordinal startYear ≤ dec31Ordinal endYear := by
  unfold jan1Ordinal dec31Ordinal daysBeforeYear
  have : startYear - 1 < endYear + 1 - 1 := by omega
  have := gdays_lt this
  omega

theorem genRangesGo_coverage (endD maxDays : ℕ) (hmd : 1 ≤ maxDays) :
    ∀ fuel cur, endD + 1 - cur ≤ fuel →
      ((genRangesGo endD maxDays fuel cur).map daysList).flatten
        = List.range' cur (endD + 1 - cur) := by
  intro fuel
  induction fuel with
  | zero =>
    intro cur h
    simp [genRangesGo, show endD + 1 - cur = 0 by omega]
  | succ fuel ih =>
    intro cur h
    by_cases hc : cur ≤ endD
    · simp only [genRangesGo, if_pos hc, List.map_cons, List.flatten_cons]
      set e := min (cur + maxDays - 1) endD with he
      have hce : cur ≤ e := by omega
      have hee : e ≤ endD := by omega
      rw [ih (e + 1) (by omega)]
      simp only [daysList]
      have key := List.range'_append_1 cur (e + 1 - cur) (endD - e)
      rw [show cur + (e + 1 - cur) = e + 1 from by omega] at key
      rw [show endD + 1 - (e + 1) = endD - e from by omega]
      rw [key]
      congr 1
      omega
    · simp [genRangesGo, hc, show endD + 1 - cur = 0 by omega]

theorem genRangesGo_bounds (endD maxDays : ℕ) (hmd : 1 ≤ maxDays) :
    ∀ fuel cur r, r ∈ genRangesGo endD maxDays fuel cur →
      cur ≤ r.1 ∧ r.1 ≤ r.2 ∧ r.2 ≤ endD ∧ r.2 + 1 - r.1 ≤ maxDays := by
  intro fuel
  induction fuel with
  | zero =>
    intro cur r hr
    simp [genRangesGo] at hr
  | succ fuel ih =>
    intro cur r hr
    by_cases hc : cur ≤ endD
    · simp only [genRangesGo, if_pos hc, List.mem_cons] at hr
      rcases hr with rfl | hr
      · refine ⟨le_refl _, ?_, ?_, ?_⟩ <;> simp <;> omega
      · have := ih _ r hr
        omega
    · simp [genRangesGo, hc] at hr

theorem genRangesGo_head (endD maxDays fuel cur : ℕ) :
    genRangesGo endD maxDays fuel cur = []
      ∨ ∃ b rest, genRangesGo endD maxDays fuel cur = (cur, b) :: rest := by
  cases fuel with
  | zero => exact Or.inl rfl
  | succ fuel =>
    by_cases hc : cur ≤ endD
    · exact Or.inr ⟨min (cur + maxDays - 1) endD,
        genRangesGo endD maxDays fuel (min (cur + maxDays - 1) endD + 1),
        by simp [genRangesGo, hc]⟩
    · exact Or.inl (by simp [genRangesGo, hc])

theorem genRangesGo_chain (endD maxDays : ℕ) :
    ∀ fuel cur, List.Chain' (fun a b : ℕ × ℕ => b.1 = a.2 + 1) (genRangesGo endD maxDays fuel cur) := by
  intro fuel
  induction fuel with
  | zero => intro cur; simp [genRangesGo]
  | succ fuel ih =>
    intro cur
    by_cases hc : cur ≤ endD
    · simp only [genRangesGo, if_pos hc]
      rcases genRangesGo_head endD maxDays fuel (min (cur + maxDays - 1) endD + 1) with h | ⟨b, rest, h⟩
      · rw [h]
        simp
      · rw [h]
        refine List.Chain'.cons rfl ?_
        rw [← h]
        exact ih _
    · simp [genRangesGo, hc]

theorem genRangesGo_pairwise (endD maxDays : ℕ) (hmd : 1 ≤ maxDays) :
    ∀ fuel cur, List.Pairwise (fun a b : ℕ × ℕ => a.2 < b.1) (genRangesGo endD maxDays fuel cur) := by
  intro fuel
  induction fuel with
  | zero => intro cur; simp [genRangesGo]
  | succ fuel ih =>
    intro cur
    by_cases hc : cur ≤ endD
    · simp only [genRangesGo, if_pos hc]
      refine List.Pairwise.cons ?_ (ih _)
      intro r hr
      have hb := (genRangesGo_bounds endD maxDays hmd fuel _ r hr).1
      show min (cur + maxDays - 1) endD < r.1
      omega
    · simp [genRangesGo, hc]

/-- C2: two raw judgment records whose diary number, case number and judgment
date carry the same text content — i.e. differ only by HTML markup (of any
capitalization) and whitespace around identical identity values — receive the
same `judgment_id` from `_save_judgments_to_mongodb`. -/
theorem judgmentId_markup_stable (r1 r2 : RawRecord)
    (hdn : fragWords r1.diary_number = fragWords r2.diary_number)
    (hdo : fragWords r1.diary_no = fragWords r2.diary_no)
    (hc : fragWords r1.case_number = fragWords r2.case_number)
    (hj : fragWords r1.judgment_date = fragWords r2.judgment_date) :
    judgmentIdOf r1 = judgmentIdOf r2 := by
  unfold judgmentIdOf diaryKey
  rw [cleanField_congr _ _ hdn, cleanField_congr _ _ hdo,
    cleanField_congr _ _ hc, cleanField_congr _ _ hj]

/-- Witness for C2 at two concrete records differing only by markup and
whitespace. -/
theorem judgmentId_markup_stable_witness :
    (fragWords c2recA.diary_number = fragWords c2recB.diary_number
      ∧ fragWords c2recA.diary_no = fragWords c2recB.diary_no
      ∧ fragWords c2recA.case_number = fragWords c2recB.case_number
      ∧ fragWords c2recA.judgment_date = fragWords c2recB.judgment_date)
      ∧ judgmentIdOf c2recA = judgmentIdOf c2recB :=
  ⟨⟨by decide, by decide, by decide, by decide⟩,
    judgmentId_markup_stable c2recA c2recB (by decide) (by decide) (by decide) (by decide)⟩

/-- C3: for `1 ≤ startYear ≤ endYear` and `maxDays ≥ 1`,
`generate_date_ranges` partitions `[Jan 1 startYear, Dec 31 endYear]`: the
chunks' days, concatenated in order, are exactly the days of the span (each
day covered exactly once, chunks in ascending order), each chunk is at most
`maxDays` days long with `start ≤ end`, consecutive chunks are contiguous,
chunks are pairwise non-overlapping, and the partition is nonempty. -/
theorem generateDateRanges_partition (startYear endYear maxDays : ℕ)
    (hy : 1 ≤ startYear) (hse : startYear ≤ endYear) (hmd : 1 ≤ maxDays) :
    ((generateDateRanges startYear endYear maxDays).map daysList).flatten
        = List.range' (jan1Ordinal startYear) (dec31Ordinal endYear + 1 - jan1Ordinal startYear)
      ∧ (∀ r ∈ generateDateRanges startYear endYear maxDays,
          r.1 ≤ r.2 ∧ r.2 + 1 - r.1 ≤ maxDays)
      ∧ List.Chain' (fun a b : ℕ × ℕ => b.1 = a.2 + 1) (generateDateRanges startYear endYear maxDays)
      ∧ List.Pairwise (fun a b : ℕ × ℕ => a.2 < b.1) (generateDateRanges startYear endYear maxDays)
      ∧ generateDateRanges startYear endYear maxDays ≠ [] := by
  have hspan := span_nonempty startYear endYear hy hse
  unfold generateDateRanges
  refine ⟨?_, ?_, ?_, ?_, ?_⟩
  · exact genRangesGo_coverage (dec31Ordinal endYear) maxDays hmd _ _ (by omega)
  · intro r hr
    have := genRangesGo_bounds (dec31Ordinal endYear) maxDays hmd _ _ r hr
    exact ⟨this.2.1, this.2.2.2⟩
  · exact genRangesGo_chain _ _ _ _
  · exact genRangesGo_pairwise _ _ hmd _ _
  · rcases genRangesGo_head (dec31Ordinal endYear) maxDays (dec31Ordinal endYear + 1) (jan1Ordinal startYear)
      with h | ⟨b, rest, h⟩
    · exfalso
      have hcov := genRangesGo_coverage (dec31Ordinal endYear) maxDays hmd
        (dec31Ordinal endYear + 1) (jan1Ordinal startYear) (by omega)
      rw [h] at hcov
      have : (List.range' (jan1Ordinal startYear)
          (dec31Ordinal endYear + 1 - jan1Ordinal startYear)).length = 0 := by
        rw [← hcov]
        rfl
      rw [List.length_range'] at this
      omega
    · rw [h]
      simp

/-- Witness for C3 on the two-year span 2020 to 2021 with 30-day chunks. -/
theorem generateDateRanges_partition_witness :
    (1 ≤ 2020 ∧ 2020 ≤ 2021 ∧ 1 ≤ 30)
      ∧ (((generateDateRanges 2020 2021 30).map daysList).flatten
          = List.range' (jan1Ordinal 2020) (dec31Ordinal 2021 + 1 - jan1Ordinal 2020)
        ∧ (∀ r ∈ generateDateRanges 2020 2021 30, r.1 ≤ r.2 ∧ r.2 + 1 - r.1 ≤ 30)
        ∧ List.Chain' (fun a b : ℕ × ℕ => b.1 = a.2 + 1) (generateDateRanges 2020 2021 30)
        ∧ List.Pairwise (fun a b : ℕ × ℕ => a.2 < b.1) (generateDateRanges 2020 2021 30)
        ∧ generateDateRanges 2020 2021 30 ≠ []) :=
  ⟨⟨by decide, by decide, by decide⟩,
    generateDateRanges_partition 2020 2021 30 (by decide) (by decide) (by decide)⟩

theorem length_filter_not_mem :
    ∀ (allR c : List Range), c.Nodup → c ⊆ allR → allR.Nodup →
      (allR.filter (fun r => decide (r ∉ c))).length + c.length = allR.length := by
  intro allR
  induction allR with
  | nil =>
    intro c _ hsub _
    have hc : c = [] := List.eq_nil_iff_forall_not_mem.mpr (fun x hx => (List.not_mem_nil x) (hsub hx))
    subst hc
    rfl
  | cons a t ih =>
    intro c hnd hsub hall
    have hat : a ∉ t := (List.nodup_cons.mp hall).1
    have htnd : t.Nodup := (List.nodup_cons.mp hall).2
    by_cases ha : a ∈ c
    · rw [List.filter_cons_of_neg (by simp [ha])]
      have hsub' : c.erase a ⊆ t := by
        intro x hx
        have hxc : x ∈ c := List.mem_of_mem_erase hx
        have hxa : x ≠ a := ((List.Nodup.mem_erase_iff hnd).mp hx).1
        rcases List.mem_cons.mp (hsub hxc) with h | h
        · exact absurd h hxa
        · exact h
      have hfilters : t.filter (fun r => decide (r ∉ c))
          = t.filter (fun r => decide (r ∉ c.erase a)) := by
        apply List.filter_congr
        intro x hx
        have hxa : x ≠ a := fun h => hat (h ▸ hx)
        simp [List.Nodup.mem_erase_iff hnd, hxa]
      have key := ih (c.erase a) (hnd.erase a) hsub' htnd
      have hlen : (c.erase a).length = c.length - 1 := List.length_erase_of_mem ha
      have hpos : 1 ≤ c.length := List.length_pos.mpr (fun h => by simp [h] at ha)
      rw [hfilters]
      simp only [List.length_cons]
      omega
    · rw [List.filter_cons_of_pos (by simp [ha])]
      have hsub' : c ⊆ t := by
        intro x hx
        rcases List.mem_cons.mp (hsub hx) with h | h
        · exact absurd (h ▸ hx) ha
        · exact h
      have key := ih c hnd hsub' htnd
      simp only [List.length_cons]
      omega

/-- C6: with a progress document holding `N` completed ranges out of the `M`
generated chunks, `get_remaining_ranges` returns exactly the `M − N`
not-completed chunks in original order followed by every failed range; with
the document absent or unreadable it returns all `M` chunks. -/
theorem getRemainingRanges_spec (allRanges completed failed : List Range)
    (hnd : completed.Nodup) (hsub : completed ⊆ allRanges) (hall : allRanges.Nodup) :
    getRemainingRanges allRanges (some ⟨completed, failed⟩)
        = (allRanges.filter (fun r => decide (r ∉ completed))) ++ failed
      ∧ (allRanges.filter (fun r => decide (r ∉ completed))).length
          = allRanges.length - completed.length
      ∧ getRemainingRanges allRanges none = allRanges := by
  refine ⟨rfl, ?_, ?_⟩
  · have := length_filter_not_mem allRanges completed hnd hsub hall
    omega
  · unfold getRemainingRanges loadProgress
    simp

/-- Witness for C6: three chunks, one completed, one failed range. -/
theorem getRemainingRanges_spec_witness :
    (([(2, 2)] : List Range).Nodup ∧ [(2, 2)] ⊆ [(1, 1), (2, 2), (3, 3)]
        ∧ ([(1, 1), (2, 2), (3, 3)] : List Range).Nodup)
      ∧ (getRemainingRanges [(1, 1), (2, 2), (3, 3)] (some ⟨[(2, 2)], [(9, 9)]⟩)
          = ([(1, 1), (2, 2), (3, 3)].filter (fun r => decide (r ∉ ([(2, 2)] : List Range)))) ++ [(9, 9)]
        ∧ ([(1, 1), (2, 2), (3, 3)].filter (fun r => decide (r ∉ ([(2, 2)] : List Range)))).length
            = [(1, 1), (2, 2), (3, 3)].length - [(2, 2)].length
        ∧ getRemainingRanges [(1, 1), (2, 2), (3, 3)] none = [(1, 1), (2, 2), (3, 3)]) :=
  ⟨⟨by decide, by decide, by decide⟩,
    getRemainingRanges_spec [(1, 1), (2, 2), (3, 3)] [(2, 2)] [(9, 9)]
      (by decide) (by decide) (by decide)⟩

/-- C1 fails on the code: `run` initializes `completed_ranges = []` instead of
the loaded progress, so with chunks `(1,2), (3,4)`, a progress store already
holding completed range `(1,2)`, and the one remaining range succeeding, the
final `save_progress` writes a completed list that no longer contains the
loaded range — a later run would re-process it. -/
theorem runFinalProgress_drops_loaded :
    (loadProgress (some ⟨[(1, 2)], []⟩)).1 = [(1, 2)]
      ∧ (runFinalProgress [(1, 2), (3, 4)] (some ⟨[(1, 2)], []⟩) (fun _ => true)).completed
          = [(3, 4)]
      ∧ (1, 2) ∉ (runFinalProgress [(1, 2), (3, 4)] (some ⟨[(1, 2)], []⟩) (fun _ => true)).completed :=
  ⟨rfl, by decide, by decide⟩

theorem find?_append_of_none {α : Type} (p : α → Bool) (l1 l2 : List α)
    (h : l1.find? p = none) : (l1 ++ l2).find? p = l2.find? p := by
  induction l1 with
  | nil => rfl
  | cons a t ih =>
    rw [List.find?_cons] at h
    by_cases hp : p a
    · simp [hp] at h
    · rw [List.cons_append, List.find?_cons]
      simp only [hp]
      exact ih (by simpa [hp] using h)

theorem reconcileOne_fresh (st : Store) (r : RawRecord)
    (hnc : findDuplicateByContent st (diaryKey r) (cleanField r.case_number)
      (cleanField r.judgment_date) = none)
    (hni : judgmentExists st (judgmentIdOf r) = false) :
    reconcileOne st r
      = (st ++ [⟨judgmentIdOf r, diaryKey r, cleanField r.case_number,
          cleanField r.judgment_date⟩], true, false) := by
  have hni' : judgmentExists st (judgmentId (diaryKey r) (cleanField r.case_number)
      (cleanField r.judgment_date)) = false := hni
  unfold reconcileOne identityOf
  dsimp only
  rw [hnc]
  dsimp only
  rw [hni']
  dsimp only
  unfold insertJudgment
  dsimp only
  rw [hni']
  simp [judgmentIdOf]

theorem reconcileOne_dup_after_insert (st : Store) (r1 r2 : RawRecord)
    (hid : identityOf r1 = identityOf r2)
    (hnc : findDuplicateByContent st (diaryKey r1) (cleanField r1.case_number)
      (cleanField r1.judgment_date) = none) :
    reconcileOne (st ++ [⟨judgmentIdOf r1, diaryKey r1, cleanField r1.case_number,
        cleanField r1.judgment_date⟩]) r2
      = (st ++ [⟨judgmentIdOf r1, diaryKey r1, cleanField r1.case_number,
          cleanField r1.judgment_date⟩], false, true) := by
  have hd : diaryKey r2 = diaryKey r1 := congrArg (fun t => t.1) hid.symm
  have hc : cleanField r2.case_number = cleanField r1.case_number :=
    congrArg (fun t => t.2.1) hid.symm
  have hj : cleanField r2.judgment_date = cleanField r1.judgment_date :=
    congrArg (fun t => t.2.2) hid.symm
  unfold reconcileOne identityOf
  dsimp only
  rw [hd, hc, hj]
  have hfound : findDuplicateByContent
      (st ++ [⟨judgmentIdOf r1, diaryKey r1, cleanField r1.case_number,
        cleanField r1.judgment_date⟩])
      (diaryKey r1) (cleanField r1.case_number) (cleanField r1.judgment_date)
      = some (judgmentIdOf r1) := by
    unfold findDuplicateByContent
    unfold findDuplicateByContent at hnc
    have hfind : st.find? (fun doc =>
        decide (doc.diary_no = diaryKey r1 ∧ doc.case_number = cleanField r1.case_number
          ∧ doc.judgment_date = cleanField r1.judgment_date)) = none :=
      Option.map_eq_none.mp hnc
    rw [find?_append_of_none _ st _ hfind]
    simp [List.find?_cons]
  rw [hfound]

/-- C5: submitting the same logical record twice (identical normalized
identity triple) against a store with no content or id match yields exactly
one accepted record and one duplicate rejection; the only store mutation is
the accepting insert, and the rejection leaves the store exactly as it was
after the first record. -/
theorem reconcile_dedup (st : Store) (r1 r2 : RawRecord)
    (hid : identityOf r1 = identityOf r2)
    (hnc : findDuplicateByContent st (diaryKey r1) (cleanField r1.case_number)
      (cleanField r1.judgment_date) = none)
    (hni : judgmentExists st (judgmentIdOf r1) = false) :
    saveJudgmentsToMongo [r1, r2] st
        = (st ++ [⟨judgmentIdOf r1, diaryKey r1, cleanField r1.case_number,
            cleanField r1.judgment_date⟩], 1, 1)
      ∧ (saveJudgmentsToMongo [r1, r2] st).1 = (saveJudgmentsToMongo [r1] st).1 := by
  have e1 := reconcileOne_fresh st r1 hnc hni
  have e2 := reconcileOne_dup_after_insert st r1 r2 hid hnc
  constructor
  · unfold saveJudgmentsToMongo
    simp only [List.foldl_cons, List.foldl_nil, e1, e2]
    simp
  · unfold saveJudgmentsToMongo
    simp only [List.foldl_cons, List.foldl_nil, e1, e2]

/-- Witness for C5: the same logical record twice against the empty store. -/
theorem reconcile_dedup_witness :
    (identityOf c5recA = identityOf c5recB
        ∧ findDuplicateByContent [] (diaryKey c5recA) (cleanField c5recA.case_number)
            (cleanField c5recA.judgment_date) = none
        ∧ judgmentExists [] (judgmentIdOf c5recA) = false)
      ∧ (saveJudgmentsToMongo [c5recA, c5recB] []
          = ([⟨judgmentIdOf c5recA, diaryKey c5recA, cleanField c5recA.case_number,
              cleanField c5recA.judgment_date⟩], 1, 1)
        ∧ (saveJudgmentsToMongo [c5recA, c5recB] []).1 = (saveJudgmentsToMongo [c5recA] []).1) :=
  ⟨⟨by decide, rfl, rfl⟩,
    by
      have h := reconcile_dedup [] c5recA c5recB (by decide) rfl rfl
      simpa using h⟩

/-- C9 fails on the code as stated: for a 200 response on a keyword URL with
textual content-type whose body read succeeds but returns an empty byte
string, `_handle_response` appends nothing, so "appended iff status, keyword,
content-type and body-read success" is false at this event. -/
theorem handleResponse_counterexample :
    ¬ ((handleResponse [] c9emptyBodyEvent ≠ [])
        ↔ (c9emptyBodyEvent.status = 200 ∧ keywordHit c9emptyBodyEvent.url = true
            ∧ textualContentType c9emptyBodyEvent.contentType = true
            ∧ c9emptyBodyEvent.bodyRead.isSome = true)) := by
  decide

/-- C9 (amended): `_handle_response` only ever appends to the capture list —
it never removes or modifies existing entries, and a swallowed body-read
failure leaves the state unchanged so later responses are still captured —
and it appends exactly when the status is 200, the URL contains an interest
keyword, the content-type is textual, and the body read succeeds with a
non-empty body. -/
theorem handleResponse_append_iff (s : List CapturedEntry) (e : RespEvent) :
    handleResponse s e
        = s ++ (if shouldCapture e then [entryOf e (e.bodyRead.getD [])] else [])
      ∧ (shouldCapture e = true
          ↔ e.status = 200 ∧ keywordHit e.url = true ∧ textualContentType e.contentType = true
            ∧ ∃ b, e.bodyRead = some b ∧ b ≠ []) := by
  constructor
  · unfold handleResponse shouldCapture
    by_cases h1 : decide (e.status = 200) && keywordHit e.url
    · by_cases h2 : textualContentType e.contentType
      · cases hb : e.bodyRead with
        | none => simp [h1, h2, hb]
        | some b =>
          by_cases h3 : b.isEmpty
          · simp [h1, h2, hb, h3]
          · simp [h1, h2, hb, h3]
      · simp [h1, h2]
    · simp [h1]
  · unfold shouldCapture
    cases hb : e.bodyRead with
    | none => simp [hb]
    | some b =>
      simp [hb, List.isEmpty_iff]
      tauto

/-- Witness discharging C9's binders at a concrete captured event. -/
theorem handleResponse_append_iff_witness :
    (handleResponse [] c9okEvent
        = [] ++ (if shouldCapture c9okEvent then [entryOf c9okEvent (c9okEvent.bodyRead.getD [])]
            else []))
      ∧ (shouldCapture c9okEvent = true
          ↔ c9okEvent.status = 200 ∧ keywordHit c9okEvent.url = true
            ∧ textualContentType c9okEvent.contentType = true
            ∧ ∃ b, c9okEvent.bodyRead = some b ∧ b ≠ []) :=
  handleResponse_append_iff [] c9okEvent

/-- C7: a JSON envelope whose only content is an HTML fragment under the
known results key `data.resultsHtml` yields exactly the records the
HTML-table strategy produces on that fragment, for whatever (shared) HTML
parser. -/
theorem jsonEnvelope_eq_htmlStrategy (parseHtml : Str → Soup) (h : Str) :
    parseJsonForJudgments parseHtml
        (Json.obj [(str "data", Json.obj [(str "resultsHtml", Json.str h)])])
      = parseTableFromSoup (parseHtml h) := by
  show (if parseTableFromSoup (parseHtml h) ≠ [] then parseTableFromSoup (parseHtml h)
      else scanKeys [(str "data", Json.obj [(str "resultsHtml", Json.str h)])])
    = parseTableFromSoup (parseHtml h)
  by_cases htj : parseTableFromSoup (parseHtml h) = []
  · rw [if_neg (fun hne => hne htj), htj]
    rfl
  · rw [if_pos htj]

theorem validHrefs_mem_ne_nil (anchors : List Anchor) :
    ∀ x ∈ validHrefs anchors, x ≠ [] := by
  induction anchors with
  | nil => intro x hx; cases hx
  | cons a rest ih =>
    intro x hx
    unfold validHrefs at hx
    dsimp only at hx
    by_cases h1 : stripCh (a.href?.getD []) = [] ∨ stripCh (a.href?.getD []) = apiBase
    · rw [if_pos h1] at hx
      exact ih x hx
    · rw [if_neg h1] at hx
      by_cases h2 : hrefDocHit (stripCh (a.href?.getD []))
      · rw [if_pos h2] at hx
        rcases List.mem_cons.mp hx with rfl | hx
        · intro hnil
          exact h1 (Or.inl hnil)
        · exact ih x hx
      · rw [if_neg h2] at hx
        exact ih x hx

theorem collectCellLinks_no_trap (anchors : List Anchor)
    (h : ∀ a ∈ anchors, onclickTrap a = false) :
    collectCellLinks anchors
      = .ok (validHrefs anchors, validHrefs anchors, (validHrefs anchors).head?) := by
  induction anchors with
  | nil => rfl
  | cons a rest ih =>
    have ha := h a (List.mem_cons_self a rest)
    have hrest := ih (fun x hx => h x (List.mem_cons_of_mem a hx))
    unfold collectCellLinks validHrefs
    dsimp only
    by_cases h1 : stripCh (a.href?.getD []) = [] ∨ stripCh (a.href?.getD []) = apiBase
    · rw [if_pos h1, if_pos h1, hrest]
    · rw [if_neg h1, if_neg h1]
      by_cases h2 : hrefDocHit (stripCh (a.href?.getD []))
      · rw [if_pos h2, if_pos h2, hrest]
        rfl
      · rw [if_neg h2, if_neg h2]
        have h3 : ¬(a.onclick ≠ [] ∧ onclickDocHit a.onclick = true) := by
          rintro ⟨ho1, ho2⟩
          unfold onclickTrap at ha
          simp only [h1, h2, ho1, ho2] at ha
          simp [ho1] at ha
        rw [if_neg h3, hrest]

/-- C4 fails on the code as stated: the judgment-cell link list is not
deduplicated — a row whose judgment cell holds two anchors with the identical
href `a.pdf` yields the 2-element link array `[a.pdf, a.pdf]`, which has a
duplicate. -/
theorem extractJudgment_duplicate_links :
    ((extractJudgmentFromCells c4cells).bind (fun j => j.judgment_links))
        = some [str "a.pdf", str "a.pdf"]
      ∧ ¬ ([str "a.pdf", str "a.pdf"] : List Str).Nodup := by
  constructor
  · rfl
  · decide

/-- C4 (amended): for a row with at least 8 cells whose judgment-cell anchors
never reach the (malformed) onclick regex, the extractor collects every
anchor whose stripped href is non-empty, non-placeholder and matches a
document pattern, as an ordered list of link strings in document order
(duplicates retained, the first one primary) — two distinct `.pdf` anchors
yield a 2-element link array, never a flattened string. -/
theorem judgmentCell_links_ordered (c0 c1 c2 c3 c4 c5 c6 c7 : Cell) (rest : List Cell)
    (htrap : ∀ a ∈ c7.anchors, onclickTrap a = false)
    (hv : validHrefs c7.anchors ≠ []) :
    ∃ j, extractJudgmentFromCells (c0 :: c1 :: c2 :: c3 :: c4 :: c5 :: c6 :: c7 :: rest) = some j
      ∧ j.pdf_links = some (validHrefs c7.anchors)
      ∧ j.judgment_links = some (validHrefs c7.anchors)
      ∧ j.pdf_link = (validHrefs c7.anchors).head? := by
  obtain ⟨h0, vrest, hveq⟩ : ∃ h0 vrest, validHrefs c7.anchors = h0 :: vrest := by
    cases hv' : validHrefs c7.anchors with
    | nil => exact absurd hv' hv
    | cons h0 t => exact ⟨h0, t, rfl⟩
  have hne : h0 ≠ [] :=
    validHrefs_mem_ne_nil c7.anchors h0 (by rw [hveq]; exact List.mem_cons_self _ _)
  rw [hveq]
  unfold extractJudgmentFromCells
  rw [show (c0 :: c1 :: c2 :: c3 :: c4 :: c5 :: c6 :: c7 :: rest)[7]? = some c7 from by simp]
  dsimp only
  rw [collectCellLinks_no_trap c7.anchors htrap, hveq]
  dsimp only
  rw [if_pos (show (h0 :: vrest : List Str) ≠ [] from by simp)]
  unfold afterFallback
  dsimp only
  rw [if_neg (show ¬(((h0 :: vrest : List Str).head?).getD [] = []) from by simpa using hne)]
  unfold finalKeep
  dsimp only
  rw [if_pos (Or.inr (show (((h0 :: vrest : List Str).head?).getD []) ≠ [] from by simpa using hne))]
  exact ⟨_, rfl, rfl, rfl, rfl⟩

/-- Witness for C4: the claim's scenario row, whose judgment cell holds two
distinct `.pdf` anchors. -/
theorem judgmentCell_links_ordered_witness :
    ((∀ a ∈ (⟨str "02-01-2024", [pdfAnchor "a.pdf" "02-01-2024(English)",
          pdfAnchor "b.pdf" "2024 INSC 1(English)"]⟩ : Cell).anchors, onclickTrap a = false)
      ∧ validHrefs (⟨str "02-01-2024", [pdfAnchor "a.pdf" "02-01-2024(English)",
          pdfAnchor "b.pdf" "2024 INSC 1(English)"]⟩ : Cell).anchors ≠ [])
      ∧ ∃ j, extractJudgmentFromCells c4wcells = some j
        ∧ j.pdf_links = some (validHrefs (⟨str "02-01-2024",
            [pdfAnchor "a.pdf" "02-01-2024(English)",
              pdfAnchor "b.pdf" "2024 INSC 1(English)"]⟩ : Cell).anchors)
        ∧ j.judgment_links = some (validHrefs (⟨str "02-01-2024",
            [pdfAnchor "a.pdf" "02-01-2024(English)",
              pdfAnchor "b.pdf" "2024 INSC 1(English)"]⟩ : Cell).anchors)
        ∧ j.pdf_link = (validHrefs (⟨str "02-01-2024",
            [pdfAnchor "a.pdf" "02-01-2024(English)",
              pdfAnchor "b.pdf" "2024 INSC 1(English)"]⟩ : Cell).anchors).head? :=
  ⟨⟨by decide, by decide⟩,
    judgmentCell_links_ordered _ _ _ _ _ _ _ _ [] (by decide) (by decide)⟩

/-- C8 fails on the code as stated: for a table whose single row has three
cells and a case number but no links, the captured-response HTML-table
strategy extracts one record while the live-page-DOM fallback (which skips
rows with fewer than 7 cells) extracts none — the two parsers do not keep
the same rows or produce the same records. -/
theorem domFallback_counterexample :
    (parseTableFromSoup [c8table]).length = 1 ∧ extractJudgmentLinksDom [c8table] = [] := by
  constructor
  · rfl
  · rfl

theorem finalKeep_eq (j out : Judgment) (h : finalKeep j = some out) : out = j := by
  unfold finalKeep at h
  by_cases hc : (j.case_number.getD []) ≠ [] ∨ (j.pdf_link.getD []) ≠ []
  · rw [if_pos hc] at h
    cases h
    rfl
  · rw [if_neg hc] at h
    cases h

theorem afterFallback_fields (j out : Judgment) (cells : List Cell)
    (h : afterFallback j cells = some out) :
    out.serial_no = j.serial_no ∧ out.diary_no = j.diary_no ∧ out.case_number = j.case_number
      ∧ out.title = j.title ∧ out.advocate = j.advocate ∧ out.bench = j.bench
      ∧ out.judge = j.judge := by
  unfold afterFallback at h
  by_cases h1 : (j.pdf_link.getD []) = []
  · rw [if_pos h1] at h
    cases hfc : fallbackCells cells with
    | error e =>
      rw [hfc] at h
      cases h
    | ok o =>
      rw [hfc] at h
      cases o with
      | some l =>
        have hout := finalKeep_eq _ _ h
        subst hout
        exact ⟨rfl, rfl, rfl, rfl, rfl, rfl, rfl⟩
      | none =>
        have hout := finalKeep_eq _ _ h
        subst hout
        exact ⟨rfl, rfl, rfl, rfl, rfl, rfl, rfl⟩
  · rw [if_neg h1] at h
    have hout := finalKeep_eq _ _ h
    subst hout
    exact ⟨rfl, rfl, rfl, rfl, rfl, rfl, rfl⟩

/-- C8 (amended): the live-page-DOM fallback keeps only rows with at least 7
cells, emitting one single-link record per valid link, while the HTML-table
strategy keeps rows with at least 3 cells and emits one record per row; on a
row with at least 8 cells both map the first seven cells positionally to the
same fields (serial, diary, case, parties, advocate, bench, judge). -/
theorem parsers_same_column_mapping (c0 c1 c2 c3 c4 c5 c6 c7 : Cell) (rest : List Cell)
    (r : DomRecord) (j : Judgment)
    (hr : r ∈ domRow (c0 :: c1 :: c2 :: c3 :: c4 :: c5 :: c6 :: c7 :: rest))
    (hj : extractJudgmentFromCells (c0 :: c1 :: c2 :: c3 :: c4 :: c5 :: c6 :: c7 :: rest)
      = some j) :
    (r.serial_no = c0.txt ∧ r.diary_no = c1.txt ∧ r.case_number = c2.txt ∧ r.title = c3.txt
        ∧ r.advocate = c4.txt ∧ r.bench = c5.txt ∧ r.judge = c6.txt)
      ∧ (j.serial_no = some c0.txt ∧ j.diary_no = some c1.txt ∧ j.case_number = some c2.txt
        ∧ j.title = some c3.txt ∧ j.advocate = some c4.txt ∧ j.bench = some c5.txt
        ∧ j.judge = some c6.txt) := by
  constructor
  · unfold domRow at hr
    dsimp only at hr
    rw [List.mem_filterMap] at hr
    obtain ⟨a, _, hfa⟩ := hr
    by_cases hc : (a.href?.getD []) ≠ [] ∧ stripCh (a.href?.getD []) ≠ []
        ∧ domDocHit (a.href?.getD []) = true
    · rw [if_pos hc] at hfa
      by_cases hskip : stripCh (a.href?.getD []) = apiBase ∨ a.text = []
      · rw [if_pos hskip] at hfa
        cases hfa
      · rw [if_neg hskip] at hfa
        cases hfa
        exact ⟨rfl, rfl, rfl, rfl, rfl, rfl, rfl⟩
    · rw [if_neg hc] at hfa
      cases hfa
  · unfold extractJudgmentFromCells at hj
    rw [show (c0 :: c1 :: c2 :: c3 :: c4 :: c5 :: c6 :: c7 :: rest)[7]? = some c7 from by simp]
      at hj
    dsimp only at hj
    cases hcl : collectCellLinks c7.anchors with
    | error e =>
      rw [hcl] at hj
      cases hj
    | ok triple =>
      obtain ⟨pls, jls, prim⟩ := triple
      rw [hcl] at hj
      dsimp only at hj
      by_cases hpl : pls ≠ []
      · rw [if_pos hpl] at hj
        obtain ⟨f1, f2, f3, f4, f5, f6, f7⟩ := afterFallback_fields _ j _ hj
        refine ⟨?_, ?_, ?_, ?_, ?_, ?_, ?_⟩
        · rw [f1]; simp [baseJudgment]
        · rw [f2]; simp [baseJudgment]
        · rw [f3]; simp [baseJudgment]
        · rw [f4]; simp [baseJudgment]
        · rw [f5]; simp [baseJudgment]
        · rw [f6]; simp [baseJudgment]
        · rw [f7]; simp [baseJudgment]
      · rw [if_neg hpl] at hj
        obtain ⟨f1, f2, f3, f4, f5, f6, f7⟩ := afterFallback_fields _ j _ hj
        refine ⟨?_, ?_, ?_, ?_, ?_, ?_, ?_⟩
        · rw [f1]; simp [baseJudgment]
        · rw [f2]; simp [baseJudgment]
        · rw [f3]; simp [baseJudgment]
        · rw [f4]; simp [baseJudgment]
        · rw [f5]; simp [baseJudgment]
        · rw [f6]; simp [baseJudgment]
        · rw [f7]; simp [baseJudgment]

/-- Witness for C8 on a concrete 8-cell row that both parsers keep. -/
theorem parsers_same_column_mapping_witness :
    (c8wr ∈ domRow (c8c0 :: c8c1 :: c8c2 :: c8c3 :: c8c4 :: c8c5 :: c8c6 :: c8c7 :: [])
        ∧ extractJudgmentFromCells
            (c8c0 :: c8c1 :: c8c2 :: c8c3 :: c8c4 :: c8c5 :: c8c6 :: c8c7 :: []) = some c8wj)
      ∧ ((c8wr.serial_no = c8c0.txt ∧ c8wr.diary_no = c8c1.txt ∧ c8wr.case_number = c8c2.txt
          ∧ c8wr.title = c8c3.txt ∧ c8wr.advocate = c8c4.txt ∧ c8wr.bench = c8c5.txt
          ∧ c8wr.judge = c8c6.txt)
        ∧ (c8wj.serial_no = some c8c0.txt ∧ c8wj.diary_no = some c8c1.txt
          ∧ c8wj.case_number = some c8c2.txt ∧ c8wj.title = some c8c3.txt
          ∧ c8wj.advocate = some c8c4.txt ∧ c8wj.bench = some c8c5.txt
          ∧ c8wj.judge = some c8c6.txt)) :=
  ⟨⟨by decide, by decide⟩,
    parsers_same_column_mapping c8c0 c8c1 c8c2 c8c3 c8c4 c8c5 c8c6 c8c7 [] c8wr c8wj
      (by decide) (by decide)⟩

theorem md5Digest_length (st : ℕ × ℕ × ℕ × ℕ) : (md5Digest st).length = 16 := by
  obtain ⟨a, b, c, d⟩ := st
  rfl

theorem wordLEBytes_lt (w : ℕ) : ∀ x ∈ wordLEBytes w, x < 256 := by
  intro x hx
  simp only [wordLEBytes, List.mem_cons, List.not_mem_nil, or_false] at hx
  rcases hx with h | h | h | h <;> subst h <;> exact Nat.mod_lt _ (by omega)

theorem md5Digest_lt (st : ℕ × ℕ × ℕ × ℕ) : ∀ x ∈ md5Digest st, x < 256 := by
  obtain ⟨a, b, c, d⟩ := st
  show ∀ x ∈ wordLEBytes a ++ (wordLEBytes b ++ (wordLEBytes c ++ wordLEBytes d)), x < 256
  intro x hx
  rcases List.mem_append.mp hx with h | hx2
  · exact wordLEBytes_lt a x h
  rcases List.mem_append.mp hx2 with h | hx3
  · exact wordLEBytes_lt b x h
  rcases List.mem_append.mp hx3 with h | h
  · exact wordLEBytes_lt c x h
  · exact wordLEBytes_lt d x h

theorem md5Bytes_length (msg : List ℕ) : (md5Bytes msg).length = 16 := by
  unfold md5Bytes
  exact md5Digest_length _

theorem md5Bytes_lt (msg : List ℕ) : ∀ x ∈ md5Bytes msg, x < 256 := by
  unfold md5Bytes
  exact md5Digest_lt _

theorem flatten_map_byteHex_length (l : List ℕ) :
    ((l.map byteHex).flatten).length = 2 * l.length := by
  induction l with
  | nil => rfl
  | cons b t ih =>
    simp only [List.map_cons, List.flatten_cons, List.length_append, ih, List.length_cons]
    have : (byteHex b).length = 2 := rfl
    omega

theorem md5Hex_length (msg : List ℕ) : (md5Hex msg).length = 32 := by
  unfold md5Hex
  rw [flatten_map_byteHex_length, md5Bytes_length]

theorem natOfBytes_lt : ∀ l : List ℕ, (∀ b ∈ l, b < 256) → natOfBytes l < 256 ^ l.length := by
  intro l
  induction l with
  | nil => intro _; simp [natOfBytes]
  | cons b t ih =>
    intro h
    have hb := h b (List.mem_cons_self b t)
    have ht := ih (fun x hx => h x (List.mem_cons_of_mem b hx))
    simp only [natOfBytes, List.length_cons, pow_succ]
    omega

theorem natOfBytes_inj : ∀ l1 l2 : List ℕ, l1.length = l2.length → (∀ b ∈ l1, b < 256)
    → (∀ b ∈ l2, b < 256) → natOfBytes l1 = natOfBytes l2 → l1 = l2 := by
  intro l1
  induction l1 with
  | nil =>
    intro l2 hlen _ _ _
    cases l2 with
    | nil => rfl
    | cons b t => simp at hlen
  | cons b1 t1 ih =>
    intro l2 hlen h1 h2 heq
    cases l2 with
    | nil => simp at hlen
    | cons b2 t2 =>
      have hb1 := h1 b1 (List.mem_cons_self _ _)
      have hb2 := h2 b2 (List.mem_cons_self _ _)
      simp only [natOfBytes] at heq
      have hb : b1 = b2 := by omega
      have hv : natOfBytes t1 = natOfBytes t2 := by omega
      have hlen' : t1.length = t2.length := by simpa using hlen
      rw [hb, ih t2 hlen' (fun x hx => h1 x (List.mem_cons_of_mem _ hx))
        (fun x hx => h2 x (List.mem_cons_of_mem _ hx)) hv]

/-- C10 fails as stated in its last part: `generate_id` maps into the
`2^128` possible MD5 digests, so among the infinitely many judge strings two
distinct ones must collide — records differing only in the judge field do
not always receive different ids. -/
theorem generateId_judge_collision :
    ¬ (∀ m1 m2 : MetaFields, m1.court_type = m2.court_type → m1.case_number = m2.case_number
        → m1.diary_no = m2.diary_no → m1.judgment_date = m2.judgment_date
        → m1.judge ≠ m2.judge → postInitId m1 [] ≠ postInitId m2 []) := by
  intro hall
  have hFb : ∀ n : ℕ, natOfBytes (md5Bytes (utf8Bytes (idString (metaOfNat n)))) < 256 ^ 16 := by
    intro n
    have h1 := natOfBytes_lt _ (md5Bytes_lt (utf8Bytes (idString (metaOfNat n))))
    rwa [md5Bytes_length] at h1
  obtain ⟨n1, n2, hne, heq⟩ := Finite.exists_ne_map_eq_of_infinite
    (fun n : ℕ =>
      (⟨natOfBytes (md5Bytes (utf8Bytes (idString (metaOfNat n)))), hFb n⟩ : Fin (256 ^ 16)))
  have hval := congrArg Fin.val heq
  dsimp only at hval
  have hbytes : md5Bytes (utf8Bytes (idString (metaOfNat n1)))
      = md5Bytes (utf8Bytes (idString (metaOfNat n2))) :=
    natOfBytes_inj _ _ (by rw [md5Bytes_length, md5Bytes_length])
      (md5Bytes_lt _) (md5Bytes_lt _) hval
  have hid : postInitId (metaOfNat n1) [] = postInitId (metaOfNat n2) [] := by
    unfold postInitId generateId md5Hex
    rw [if_pos rfl, if_pos rfl, hbytes]
  have hjudge : (metaOfNat n1).judge ≠ (metaOfNat n2).judge := by
    unfold metaOfNat judgeOfNat
    intro h
    apply hne
    have h2 := Option.some.inj h
    have h3 := congrArg List.length h2
    simpa using h3
  exact hall (metaOfNat n1) (metaOfNat n2) rfl rfl rfl rfl hjudge hid

theorem app_cons_cancel (a x y : Str) (c : Char) (h : a ++ c :: x = a ++ c :: y) : x = y := by
  have h2 := List.append_cancel_left h
  injection h2 with hc hxy

/-- C10 (amended): a `JudgmentMetadata` constructed with an empty
`judgment_id` is assigned a non-empty 32-character id, a deterministic pure
function of `court_type`, `case_number`, `diary_no`, `judgment_date` and
`judge` — the MD5 hex digest of their concatenation — a second id scheme
distinct from the reconciler's token-concatenation `judgmentId`, under which
two records differing in the (None-coerced) judge field receive different
digest inputs (distinct inputs need not give distinct digests, MD5 having
finitely many). -/
theorem generateId_scheme :
    (∀ m : MetaFields, postInitId m [] ≠ [] ∧ (postInitId m []).length = 32)
      ∧ (∀ m1 m2 : MetaFields, m1.court_type = m2.court_type → m1.case_number = m2.case_number
          → m1.diary_no = m2.diary_no → m1.judgment_date = m2.judgment_date → m1.judge = m2.judge
          → postInitId m1 [] = postInitId m2 [])
      ∧ (∀ m : MetaFields, postInitId m [] = md5Hex (utf8Bytes (idString m)))
      ∧ postInitId c10m [] ≠ judgmentId (str "1") (str "2") (str "3")
      ∧ (∀ m1 m2 : MetaFields, m1.court_type = m2.court_type → m1.case_number = m2.case_number
          → m1.diary_no = m2.diary_no → m1.judgment_date = m2.judgment_date
          → m1.judge.getD [] ≠ m2.judge.getD [] → idString m1 ≠ idString m2) := by
  refine ⟨?_, ?_, ?_, ?_, ?_⟩
  · intro m
    have hl : (postInitId m []).length = 32 := by
      unfold postInitId generateId
      rw [if_pos rfl]
      exact md5Hex_length _
    refine ⟨fun h => ?_, hl⟩
    rw [h] at hl
    simp at hl
  · intro m1 m2 h1 h2 h3 h4 h5
    unfold postInitId generateId idString
    rw [if_pos rfl, if_pos rfl, h1, h2, h3, h4, h5]
  · intro m
    unfold postInitId
    rw [if_pos rfl]
    rfl
  · intro hcontra
    have h1 : (postInitId c10m []).length = 32 := by
      unfold postInitId generateId
      rw [if_pos rfl]
      exact md5Hex_length _
    have h2 : (judgmentId (str "1") (str "2") (str "3")).length = 5 := by decide
    rw [hcontra, h2] at h1
    omega
  · intro m1 m2 h1 h2 h3 h4 h5 heq
    unfold idString at heq
    rw [h1, h2, h3, h4] at heq
    have e1 := app_cons_cancel (m2.court_type)
      (m2.case_number.getD [] ++ ('_' :: (m2.diary_no.getD []
        ++ ('_' :: (m2.judgment_date.getD [] ++ ('_' :: m1.judge.getD []))))))
      (m2.case_number.getD [] ++ ('_' :: (m2.diary_no.getD []
        ++ ('_' :: (m2.judgment_date.getD [] ++ ('_' :: m2.judge.getD []))))))
      '_' heq
    have e2 := app_cons_cancel (m2.case_number.getD [])
      (m2.diary_no.getD [] ++ ('_' :: (m2.judgment_date.getD [] ++ ('_' :: m1.judge.getD []))))
      (m2.diary_no.getD [] ++ ('_' :: (m2.judgment_date.getD [] ++ ('_' :: m2.judge.getD []))))
      '_' e1
    have e3 := app_cons_cancel (m2.diary_no.getD [])
      (m2.judgment_date.getD [] ++ ('_' :: m1.judge.getD []))
      (m2.judgment_date.getD [] ++ ('_' :: m2.judge.getD [])) '_' e2
    have e4 := app_cons_cancel (m2.judgment_date.getD [])
      (m1.judge.getD []) (m2.judge.getD []) '_' e3
    exact h5 e4

/-- Witness for C10 at concrete metadata records. -/
theorem generateId_scheme_witness :
    (postInitId c10m [] ≠ [] ∧ (postInitId c10m []).length = 32)
      ∧ postInitId c10m [] = postInitId c10m []
      ∧ postInitId c10m [] = md5Hex (utf8Bytes (idString c10m))
      ∧ postInitId c10m [] ≠ judgmentId (str "1") (str "2") (str "3")
      ∧ idString c10m ≠ idString c10mb :=
  ⟨generateId_scheme.1 c10m,
    generateId_scheme.2.1 c10m c10m rfl rfl rfl rfl rfl,
    generateId_scheme.2.2.1 c10m,
    generateId_scheme.2.2.2.1,
    generateId_scheme.2.2.2.2 c10m c10mb rfl rfl rfl rfl (by decide)⟩

end SCS

